import Mathlib

/-!
Verification of `ConvertStringToType` from `pkg/common/types.go` of MCPShell.

The Go function converts a raw string to a typed value according to a
parameter type tag ("string", "number", "integer", "boolean"; empty tag
defaults to "string").  It delegates numeric parsing to Go's
`strconv.ParseFloat(value, 64)` and `strconv.ParseInt(value, 10, 64)`,
which are embedded below faithfully at the level of their accepted syntax
and (exact) numeric values.  The only abstraction: a finite float64 result
is carried as the exact rational value denoted by the literal instead of
its IEEE-754 rounding; the overflow-to-infinity range error of ParseFloat
is modelled exactly by its threshold 2^1024 - 2^970 on the exact value
(round-to-nearest-even sends magnitudes at or above that bound to
infinity, which ParseFloat reports as a range error, while smaller
magnitudes, including underflow to zero, succeed).
-/

set_option maxRecDepth 16000

namespace MCPShell

/-- Result of Go `strconv.ParseFloat`: a finite result carries the exact
rational value of the literal (IEEE-754 rounding is outside the embedding);
infinities and NaN are the special values recognized by ParseFloat. -/
inductive GoFloat where
  | finite (q : ℚ)
  | inf (neg : Bool)
  | nan
deriving DecidableEq

/-- The dynamically typed success value returned by ConvertStringToType
(Go returns `interface\x7b\x7d`; the four constructors are the four concrete
types the function can produce: string, float64, int64, bool). -/
inductive Value where
  | vString (s : String)
  | vNumber (f : GoFloat)
  | vInt (n : Int)
  | vBool (b : Bool)
deriving DecidableEq

/-- Kind of a Go strconv `NumError`: `ErrSyntax` or `ErrRange`. -/
inductive NumErrKind where
  | errSyn
  | errRange
deriving DecidableEq

/-- Go strconv `NumError`: the failing function, the offending numeral
string, and the error kind. -/
structure NumError where
  func : String
  num : String
  kind : NumErrKind
deriving DecidableEq

/-- Message text of the two strconv error kinds. -/
def NumErrKind.text : NumErrKind → String
  | .errSyn => "invalid syntax"
  | .errRange => "value out of range"

/-- strconv.Quote, abbreviated to plain wrapping quotes (Go escapes
non-printable characters inside; no claim depends on the inner quoting). -/
def quoteSimple (s : String) : String := "\"" ++ s ++ "\""

/-- Rendered message of a strconv NumError:
`strconv.<Func>: parsing <quoted num>: <kind text>`. -/
def NumError.message (e : NumError) : String :=
  "strconv." ++ e.func ++ ": parsing " ++ quoteSimple e.num ++ ": " ++ e.kind.text

/-- The error values ConvertStringToType can return, one constructor per
`fmt.Errorf` site in the Go source, carrying the interpolated data. -/
inductive ConvError where
  | numberParse (value : String) (inner : NumError)
  | integerParse (value : String) (inner : NumError)
  | booleanParse (value : String)
  | unsupportedType (paramType : String)
deriving DecidableEq

/-- Rendered error message, following the Go format strings verbatim
(`%s` interpolates the raw value; `%w` appends the wrapped error text). -/
def ConvError.message : ConvError → String
  | .numberParse v e => "failed to parse '" ++ v ++ "' as number: " ++ e.message
  | .integerParse v e => "failed to parse '" ++ v ++ "' as integer: " ++ e.message
  | .booleanParse v => "failed to parse '" ++ v ++ "' as boolean"
  | .unsupportedType t => "unsupported parameter type: " ++ t

/-- The spec's ConversionError kind: the three parse-failure sites. -/
def ConvError.isConversionError : ConvError → Bool
  | .unsupportedType _ => false
  | _ => true

/-- The spec's UnsupportedTypeError kind: the default-case site. -/
def ConvError.isUnsupportedTypeError : ConvError → Bool
  | .unsupportedType _ => true
  | _ => false

/-! ## Character helpers shared by the strconv embeddings -/

/-- strconv's `lower(c byte) byte`: c | ('x' - 'X'), i.e. set bit 0x20.
We compare code points numerically, so the result is kept as a Nat. -/
def lowerN (c : Char) : Nat := c.toNat ||| 32

/-- ASCII decimal digit test (`'0' <= c && c <= '9'` on code points). -/
def isDig (c : Char) : Bool := decide (48 ≤ c.toNat ∧ c.toNat ≤ 57)

/-- Hex letter test used by readFloat and underscoreOK:
`'a' <= lower(c) && lower(c) <= 'f'`. -/
def isHexLetter (c : Char) : Bool := decide (97 ≤ lowerN c ∧ lowerN c ≤ 102)

/-! ## strconv underscoreOK

Go: underscores in a numeric literal are accepted only when they separate
digits (or follow a base prefix).  Transcribed from strconv/atoi.go. -/

/-- State of underscoreOK's scan: `^` (start), `0` (digit or base prefix),
`_` (underscore), `!` (other). -/
inductive Saw where
  | start
  | dig
  | und
  | other
deriving DecidableEq

/-- The scanning loop of strconv's underscoreOK (parameter `hex` widens the
digit class to hex letters).  Returns Go's `saw != '_'` at the end. -/
def underscoreOKLoop (hex : Bool) : List Char → Saw → Bool
  | [], saw => decide (saw ≠ Saw.und)
  | c :: rest, saw =>
    if isDig c || (hex && isHexLetter c) then
      underscoreOKLoop hex rest .dig
    else if c = '_' then
      if saw ≠ Saw.dig then false else underscoreOKLoop hex rest .und
    else if saw = Saw.und then false
    else underscoreOKLoop hex rest .other

/-- strconv's underscoreOK: optional sign, optional base marker 0b/0o/0x
(counting as a digit), then the scan. -/
def underscoreOK (cs : List Char) : Bool :=
  let cs1 :=
    match cs with
    | c :: rest => if c = '-' ∨ c = '+' then rest else cs
    | [] => cs
  match cs1 with
  | c0 :: c1 :: rest =>
    if c0 = '0' ∧ (lowerN c1 = 98 ∨ lowerN c1 = 111 ∨ lowerN c1 = 120) then
      underscoreOKLoop (lowerN c1 = 120) rest .dig
    else underscoreOKLoop false cs1 .start
  | _ => underscoreOKLoop false cs1 .start

/-! ## strconv special (Inf / NaN recognition) -/

/-- strconv's commonPrefixLenIgnoreCase: length of the common prefix of `s`
and the (lowercase) pattern, ASCII-case-insensitively. -/
def commonPrefLenIC : List Char → List Char → Nat
  | _, [] => 0
  | [], _ => 0
  | c :: s, p :: ps =>
    let cl := if 65 ≤ c.toNat ∧ c.toNat ≤ 90 then c.toNat + 32 else c.toNat
    if cl = p.toNat then 1 + commonPrefLenIC s ps else 0

/-- Body of special's `'i','I'` case (also reached by fallthrough from the
sign case): accept `inf` or `infinity`, case-insensitively. -/
def specialInfCase (s : List Char) (neg : Bool) (nsign : Nat) :
    Option (GoFloat × Nat) :=
  let n := commonPrefLenIC s ['i', 'n', 'f', 'i', 'n', 'i', 't', 'y']
  let n := if 3 < n ∧ n < 8 then 3 else n
  if n = 3 ∨ n = 8 then some (.inf neg, nsign + n) else none

/-- strconv's special: recognizes (optionally signed) Inf/Infinity and
(unsigned) NaN, returning the value and the number of characters consumed.
A sign falls through into the infinity case only, as in the Go switch. -/
def special (s : List Char) : Option (GoFloat × Nat) :=
  match s with
  | [] => none
  | c :: rest =>
    if c = '+' ∨ c = '-' then specialInfCase rest (c = '-') 1
    else if c = 'i' ∨ c = 'I' then specialInfCase s false 0
    else if c = 'n' ∨ c = 'N' then
      if commonPrefLenIC s ['n', 'a', 'n'] = 3 then some (.nan, 3) else none
    else none

/-! ## strconv readFloat -/

/-- Mantissa-scan state of readFloat.  `mantissa` is kept exact (Go caps it
at 19/16 significant digits and sets `trunc`, recovering full precision in
the slow conversion path; since we carry exact values the cap is dropped).
`nd` counts significant digits, `dp` tracks the decimal-point position. -/
structure MLoop where
  mantissa : Nat
  nd : Nat
  dp : Int
  sawdot : Bool
  sawdigits : Bool
  und : Bool

/-- The mantissa digit loop of readFloat (underscores skipped and flagged,
one dot allowed, leading zeros skipped with `dp` adjustment).  Returns the
final state and the unconsumed remainder. -/
def mantLoop (hex : Bool) : List Char → MLoop → MLoop × List Char
  | [], st => (st, [])
  | c :: rest, st =>
    if c = '_' then mantLoop hex rest { st with und := true }
    else if c = '.' then
      if st.sawdot then (st, c :: rest)
      else mantLoop hex rest { st with sawdot := true, dp := st.nd }
    else if isDig c then
      if c = '0' ∧ st.nd = 0 then
        mantLoop hex rest { st with sawdigits := true, dp := st.dp - 1 }
      else
        mantLoop hex rest { st with sawdigits := true, nd := st.nd + 1, mantissa := st.mantissa * (if hex then 16 else 10) + (c.toNat - 48) }
    else if hex && isHexLetter c then
      mantLoop hex rest { st with sawdigits := true, nd := st.nd + 1, mantissa := st.mantissa * 16 + (lowerN c - 97 + 10) }
    else (st, c :: rest)

/-- The exponent digit loop of readFloat: digits and underscores, with the
Go guard that stops growing `e` once it reaches 10000. -/
def expLoop : List Char → Nat → Bool → Nat × Bool × List Char
  | [], e, und => (e, und, [])
  | c :: rest, e, und =>
    if isDig c then
      expLoop rest (if e < 10000 then e * 10 + (c.toNat - 48) else e) und
    else if c = '_' then expLoop rest e true
    else (e, und, c :: rest)

/-- Successful output of readFloat: exact mantissa, exponent (power of 10,
or of 2 for hex literals), sign, and base flag. -/
structure RFOut where
  mantissa : Nat
  exp : Int
  neg : Bool
  hex : Bool
deriving DecidableEq

/-- strconv's readFloat: optional sign, optional 0x prefix, mantissa digits
with optional dot, then a mandatory-for-hex / optional-for-decimal
exponent, then the underscore-placement validation on the consumed prefix.
Returns the parsed components and the count of consumed characters, or
`none` on a syntax failure (in Go the index returned alongside `ok=false`
only feeds a syntax error that ParseFloat propagates regardless, so it is
dropped here). -/
def readFloat (s : List Char) : Option (RFOut × Nat) :=
  let total := s.length
  let (neg, s1) :=
    match s with
    | '+' :: rest => (false, rest)
    | '-' :: rest => (true, rest)
    | _ => (false, s)
  let (hex, s2) :=
    match s1 with
    | c0 :: c1 :: c2 :: rest =>
      if c0 = '0' ∧ lowerN c1 = 120 then (true, c2 :: rest) else (false, s1)
    | _ => (false, s1)
  let (st, s3) := mantLoop hex s2 ⟨0, 0, 0, false, false, false⟩
  if st.sawdigits = false then none
  else
    let dp0 : Int := if st.sawdot then st.dp else (st.nd : Int)
    let dp1 : Int := if hex then dp0 * 4 else dp0
    let ndm : Int := if hex then (st.nd : Int) * 4 else (st.nd : Int)
    let expChar : Nat := if hex then 112 else 101
    let cont : Option (Int × Bool × List Char) :=
      match s3 with
      | c :: rest =>
        if lowerN c = expChar then
          match rest with
          | [] => none
          | r0 :: r1 =>
            let (esign, rest2) : Int × List Char :=
              if r0 = '+' then (1, r1)
              else if r0 = '-' then (-1, r1)
              else (1, r0 :: r1)
            match rest2 with
            | [] => none
            | d0 :: _ =>
              if isDig d0 then
                let (e, und2, rest3) := expLoop rest2 0 st.und
                some (dp1 + esign * (e : Int), und2, rest3)
              else none
        else if hex then none
        else some (dp1, st.und, c :: rest)
      | [] => if hex then none else some (dp1, st.und, [])
    match cont with
    | none => none
    | some (dp2, und2, rest2) =>
      let i := total - rest2.length
      let exp : Int := if st.mantissa ≠ 0 then dp2 - ndm else 0
      if und2 ∧ underscoreOK (s.take i) = false then none
      else some (⟨st.mantissa, exp, neg, hex⟩, i)

/-- Binary exponentiation with a structural fuel of one bit per step:
powBinAux fuel b n = b ^ n whenever n < 2 ^ fuel (proved below).  Plain
`Nat.pow` unfolds once per unit of the exponent, which overflows the
elaborator stack at the large exponents float literals can carry; this
version recurses on the bit length instead. -/
def powBinAux : Nat → Nat → Nat → Nat
  | 0, _, _ => 1
  | fuel + 1, b, n =>
    if n = 0 then 1
    else
      let h := powBinAux fuel b (n / 2)
      if n % 2 = 0 then h * h else h * h * b

/-- b ^ n for n < 2^64, by binary exponentiation. -/
def powBin (b n : Nat) : Nat := powBinAux 64 b n

/-- Exact rational value denoted by a readFloat result: the mantissa
scaled by base^exp, base 10 for decimal and 2 for hex literals, negated
per the sign.  Built from core rational operations (mkRat normalizes), so
that it evaluates by kernel reduction. -/
def rfRat (o : RFOut) : ℚ :=
  let b : Nat := if o.hex then 2 else 10
  let mag : ℚ :=
    if 0 ≤ o.exp then mkRat (o.mantissa * powBin b o.exp.toNat) 1
    else mkRat o.mantissa (powBin b (-o.exp).toNat)
  if o.neg then -mag else mag

/-- The float64 overflow threshold 2^1024 - 2^970 = 2^970 * (2^54 - 1):
IEEE-754 round-to-nearest-even sends exact magnitudes at or above this
bound to infinity, and everything below it to a finite float. -/
def overflowBound : Nat := powBin 2 970 * (powBin 2 54 - 1)

/-- Overflow test for rounding to float64: |q| ≥ overflowBound, expressed
on the normalized numerator and (positive) denominator of `q`:
|num|/den ≥ B iff B * den ≤ |num|.  ParseFloat reports ErrRange exactly
for such magnitudes; smaller ones, underflow to zero included, succeed
without error in Go. -/
def overflow64 (q : ℚ) : Bool := decide (overflowBound * q.den ≤ q.num.natAbs)

/-- strconv's atof64: specials first, then readFloat; a finite result is
the exact value, except that overflowing magnitudes become infinities with
a range error.  Returns (value, consumed count, error kind). -/
def atof64 (s : List Char) : GoFloat × Nat × Option NumErrKind :=
  match special s with
  | some (f, n) => (f, n, none)
  | none =>
    match readFloat s with
    | none => (.finite 0, 0, some .errSyn)
    | some (o, n) =>
      let q := rfRat o
      if overflow64 q then (.inf o.neg, n, some .errRange)
      else (.finite q, n, none)

/-- Go `strconv.ParseFloat(s, 64)`: atof64 on the whole string; trailing
unconsumed input turns a non-syntax outcome into a syntax error. -/
def goParseFloat64 (s : String) : Except NumError GoFloat :=
  let cs := s.data
  let (f, n, err) := atof64 cs
  if n ≠ cs.length ∧ err ≠ some NumErrKind.errSyn then
    .error ⟨"ParseFloat", s, .errSyn⟩
  else
    match err with
    | some k => .error ⟨"ParseFloat", s, k⟩
    | none => .ok f

/-! ## strconv ParseInt(s, 10, 64) -/

/-- `maxUint64` (1<<64 - 1). -/
def maxU64 : Nat := 2 ^ 64 - 1

/-- ParseUint's cutoff for base 10: maxUint64/10 + 1, the smallest value
whose multiplication by 10 overflows uint64. -/
def cutoff10 : Nat := maxU64 / 10 + 1

/-- The digit loop of `strconv.ParseUint(s, 10, 64)`: uint64 accumulation
with explicit wraparound (mod 2^64) and the cutoff/overflow checks.
Letters and every other non-digit produce a syntax error (a letter's digit
value is at least 10, which fails the `d >= base` check). -/
def parseUintLoop : List Char → Nat → Except NumErrKind Nat
  | [], n => .ok n
  | c :: rest, n =>
    if isDig c then
      if cutoff10 ≤ n then .error .errRange
      else
        let n1 := (n * 10 % 2 ^ 64 + (c.toNat - 48)) % 2 ^ 64
        if n1 < n * 10 % 2 ^ 64 ∨ maxU64 < n1 then .error .errRange
        else parseUintLoop rest n1
    else .error .errSyn

/-- Go `strconv.ParseUint(s, 10, 64)` on the sign-stripped input:
empty input is a syntax error, otherwise the digit loop from 0. -/
def goParseUint10_64 (s0 : List Char) : Except NumErrKind Nat :=
  if s0 = [] then .error .errSyn else parseUintLoop s0 0

/-- The part of `strconv.ParseInt(s, 10, 64)` after the sign is stripped:
ParseUint on the remainder `s0`, then the signed cutoff checks against
2^63.  A syntax error from ParseUint is rewritten by ParseInt to carry the
full input `s`; a range error from ParseUint reports maxUint64, which
fails both cutoff checks below, so it surfaces as a ParseInt range error. -/
def parseIntPost (s : String) (neg : Bool) (s0 : List Char) :
    Except NumError Int :=
  match goParseUint10_64 s0 with
  | .error .errSyn => .error ⟨"ParseInt", s, .errSyn⟩
  | .error .errRange => .error ⟨"ParseInt", s, .errRange⟩
  | .ok un =>
    if neg = false ∧ 2 ^ 63 ≤ un then .error ⟨"ParseInt", s, .errRange⟩
    else if neg = true ∧ 2 ^ 63 < un then .error ⟨"ParseInt", s, .errRange⟩
    else .ok (if neg then -(un : Int) else (un : Int))

/-- Go `strconv.ParseInt(s, 10, 64)`: empty input is a syntax error;
otherwise strip an optional sign (`neg` records a leading minus) and
continue with parseIntPost. -/
def goParseInt10_64 (s : String) : Except NumError Int :=
  match s.data with
  | [] => .error ⟨"ParseInt", s, .errSyn⟩
  | c :: rest =>
    if c = '+' then parseIntPost s false rest
    else if c = '-' then parseIntPost s true rest
    else parseIntPost s false (c :: rest)

/-! ## strings.ToLower and the boolean branch -/

/-- strings.ToLower applies the Unicode simple case mapping per rune.  Only
ASCII letters can affect the boolean token comparison below (the sole
non-ASCII runes with ASCII lowercase mappings are U+212A to k and U+0130
to i, and neither k nor i occurs in the token sets), so the ASCII mapping
is modelled and all other runes are kept fixed. -/
def charToLowerGo (c : Char) : Char :=
  if 65 ≤ c.toNat ∧ c.toNat ≤ 90 then Char.ofNat (c.toNat + 32) else c

/-- Go `strings.ToLower`, rune by rune. -/
def goToLower (s : String) : String := ⟨s.data.map charToLowerGo⟩

/-! ## ConvertStringToType -/

/-- The `switch paramType` body of ConvertStringToType, after the
empty-tag defaulting.  Go returns the pair (converted value, error); every
return site is either (v, nil) or (nil, err), modelled by the two Options. -/
def convertCore (value paramType : String) : Option Value × Option ConvError :=
  if paramType = "string" then (some (.vString value), none)
  else if paramType = "number" then
    match goParseFloat64 value with
    | .error e => (none, some (.numberParse value e))
    | .ok f => (some (.vNumber f), none)
  else if paramType = "integer" then
    match goParseInt10_64 value with
    | .error e => (none, some (.integerParse value e))
    | .ok n => (some (.vInt n), none)
  else if paramType = "boolean" then
    let lowerVal := goToLower value
    if lowerVal ∈ ["true", "t", "yes", "y", "1"] then (some (.vBool true), none)
    else if lowerVal ∈ ["false", "f", "no", "n", "0"] then (some (.vBool false), none)
    else (none, some (.booleanParse value))
  else (none, some (.unsupportedType paramType))

/-- ConvertStringToType from pkg/common/types.go: default the empty type
tag to "string", then dispatch on the tag. -/
def ConvertStringToType (value paramType : String) :
    Option Value × Option ConvError :=
  convertCore value (if paramType = "" then "string" else paramType)

/-! ## Spec-side definitions, used only to state the claims -/

/-- Splits the longest run of leading ASCII digits: returns its length and
the remainder. -/
def spanDigits : List Char → Nat × List Char
  | [] => (0, [])
  | c :: rest =>
    if isDig c then
      let (n, r) := spanDigits rest
      (n + 1, r)
    else (0, c :: rest)

/-- Stated from the SPEC's words for claim C1 ("standard decimal/exponential
numeric syntax", with "abc", "", "1.2.3" as rejected examples): optional
sign, a decimal mantissa of digits with at most one dot and at least one
digit, and an optional e/E exponent with optional sign and at least one
digit.  Used only to state C1 as written; the code-side acceptance is
goParseFloat64. -/
def specDecFloat (s : String) : Bool :=
  let cs :=
    match s.data with
    | c :: rest => if c = '+' ∨ c = '-' then rest else s.data
    | [] => s.data
  let (nInt, r1) := spanDigits cs
  let step2 : Option (List Char) :=
    match r1 with
    | '.' :: r =>
      let (nFrac, r2) := spanDigits r
      if 0 < nInt + nFrac then some r2 else none
    | _ => if 0 < nInt then some r1 else none
  match step2 with
  | none => false
  | some r2 =>
    match r2 with
    | [] => true
    | c :: r3 =>
      if c = 'e' ∨ c = 'E' then
        let r4 :=
          match r3 with
          | d :: r => if d = '+' ∨ d = '-' then r else r3
          | [] => r3
        let (nExp, r5) := spanDigits r4
        decide (0 < nExp) && decide (r5 = [])
      else false

/-- Nonempty all-ASCII-digit character list. -/
def isDecDigits (cs : List Char) : Bool := !cs.isEmpty && cs.all isDig

/-- Base-10 value accumulation over a digit list, starting from `a`. -/
def digitsFold (a : Nat) (ds : List Char) : Nat :=
  ds.foldl (fun n c => n * 10 + (c.toNat - 48)) a

/-- Base-10 value of a digit list. -/
def digitsVal (ds : List Char) : Nat := digitsFold 0 ds

/-- Value of a sign-stripped base-10 digit literal under a sign flag, when
it is a nonempty all-digit string; `none` otherwise.  Spec-side helper for
claim C3. -/
def specIntCore (neg : Bool) (ds : List Char) : Option Int :=
  if isDecDigits ds then
    some (if neg then -(digitsVal ds : Int) else (digitsVal ds : Int))
  else none

/-- Stated from the spec's words for claim C3: a base-10 signed integer
literal (optional sign, then at least one ASCII digit) and its exact
mathematical value, without any range restriction. -/
def specInt10 (s : String) : Option Int :=
  match s.data with
  | [] => none
  | c :: rest =>
    if c = '+' then specIntCore false rest
    else if c = '-' then specIntCore true rest
    else specIntCore false (c :: rest)

/-- `sub` occurs verbatim inside `s` (the spec's "embeds the offending
string"). -/
def embeds (sub s : String) : Prop :=
  ∃ pre suf : List Char, s.data = pre ++ sub.data ++ suf

/-- The success-value typing of claim C9: which Value constructor each
parameter type tag produces. -/
def wellTyped (paramType : String) : Value → Prop
  | .vString _ => paramType = "string" ∨ paramType = ""
  | .vNumber _ => paramType = "number"
  | .vInt _ => paramType = "integer"
  | .vBool _ => paramType = "boolean"

/-! ## Helper lemmas -/

theorem data_append_eq : ∀ a b : String, (a ++ b).data = a.data ++ b.data
  | ⟨_⟩, ⟨_⟩ => rfl

theorem embeds_end (l1 v : String) : embeds v (l1 ++ v) :=
  ⟨l1.data, [], by simp [data_append_eq]⟩

theorem embeds_after (l1 v m : String) : embeds v (l1 ++ v ++ m) :=
  ⟨l1.data, m.data, by simp [data_append_eq]⟩

theorem embeds_mid2 (l1 v l2 m : String) : embeds v (l1 ++ v ++ l2 ++ m) :=
  ⟨l1.data, l2.data ++ m.data, by simp [data_append_eq]⟩

theorem convert_empty_tag (value : String) :
    ConvertStringToType value "" = (some (.vString value), none) := rfl

theorem convert_string_tag (value : String) :
    ConvertStringToType value "string" = (some (.vString value), none) := rfl

theorem convert_number_tag (value : String) :
    ConvertStringToType value "number" =
      (match goParseFloat64 value with
       | .error e => (none, some (.numberParse value e))
       | .ok f => (some (.vNumber f), none)) := rfl

theorem convert_integer_tag (value : String) :
    ConvertStringToType value "integer" =
      (match goParseInt10_64 value with
       | .error e => (none, some (.integerParse value e))
       | .ok n => (some (.vInt n), none)) := rfl

theorem convert_boolean_tag (value : String) :
    ConvertStringToType value "boolean" =
      (if goToLower value ∈ ["true", "t", "yes", "y", "1"] then
        (some (.vBool true), none)
      else if goToLower value ∈ ["false", "f", "no", "n", "0"] then
        (some (.vBool false), none)
      else (none, some (.booleanParse value))) := rfl

theorem convert_master (value paramType : String) :
    ((paramType = "" ∨ paramType = "string") ∧
      ConvertStringToType value paramType = (some (.vString value), none)) ∨
    (paramType = "number" ∧
      ((∃ f, ConvertStringToType value paramType = (some (.vNumber f), none)) ∨
       (∃ er, ConvertStringToType value paramType =
          (none, some (.numberParse value er))))) ∨
    (paramType = "integer" ∧
      ((∃ n, ConvertStringToType value paramType = (some (.vInt n), none)) ∨
       (∃ er, ConvertStringToType value paramType =
          (none, some (.integerParse value er))))) ∨
    (paramType = "boolean" ∧
      ((∃ b, ConvertStringToType value paramType = (some (.vBool b), none)) ∨
       ConvertStringToType value paramType =
         (none, some (.booleanParse value)))) ∨
    (paramType ≠ "" ∧ paramType ≠ "string" ∧ paramType ≠ "number" ∧
     paramType ≠ "integer" ∧ paramType ≠ "boolean" ∧
      ConvertStringToType value paramType =
        (none, some (.unsupportedType paramType))) := by
  by_cases h0 : paramType = ""
  · subst h0
    exact Or.inl ⟨Or.inl rfl, convert_empty_tag value⟩
  by_cases h1 : paramType = "string"
  · subst h1
    exact Or.inl ⟨Or.inr rfl, convert_string_tag value⟩
  by_cases h2 : paramType = "number"
  · subst h2
    refine Or.inr (Or.inl ⟨rfl, ?_⟩)
    rcases hp : goParseFloat64 value with e | f
    · exact Or.inr ⟨e, by rw [convert_number_tag, hp]⟩
    · exact Or.inl ⟨f, by rw [convert_number_tag, hp]⟩
  by_cases h3 : paramType = "integer"
  · subst h3
    refine Or.inr (Or.inr (Or.inl ⟨rfl, ?_⟩))
    rcases hp : goParseInt10_64 value with e | n
    · exact Or.inr ⟨e, by rw [convert_integer_tag, hp]⟩
    · exact Or.inl ⟨n, by rw [convert_integer_tag, hp]⟩
  by_cases h4 : paramType = "boolean"
  · subst h4
    refine Or.inr (Or.inr (Or.inr (Or.inl ⟨rfl, ?_⟩)))
    rw [convert_boolean_tag]
    by_cases hT : goToLower value ∈ ["true", "t", "yes", "y", "1"]
    · exact Or.inl ⟨true, by rw [if_pos hT]⟩
    rw [if_neg hT]
    by_cases hF : goToLower value ∈ ["false", "f", "no", "n", "0"]
    · exact Or.inl ⟨false, by rw [if_pos hF]⟩
    · exact Or.inr (by rw [if_neg hF])
  · refine Or.inr (Or.inr (Or.inr (Or.inr ⟨h0, h1, h2, h3, h4, ?_⟩)))
    simp [ConvertStringToType, convertCore, h0, h1, h2, h3, h4]

theorem powBinAux_eq (fuel : Nat) :
    ∀ b n : Nat, n < 2 ^ fuel → powBinAux fuel b n = b ^ n := by
  induction fuel with
  | zero =>
    intro b n h
    have hn : n = 0 := by simpa using Nat.lt_one_iff.mp (by simpa using h)
    subst hn
    rfl
  | succ fuel ih =>
    intro b n h
    by_cases h0 : n = 0
    · subst h0
      simp [powBinAux]
    · have h2 : n / 2 < 2 ^ fuel := by
        have hp : 2 ^ (fuel + 1) = 2 ^ fuel * 2 := pow_succ 2 fuel
        omega
      simp only [powBinAux, h0, if_false]
      rw [ih b (n / 2) h2]
      by_cases hpar : n % 2 = 0
      · rw [if_pos hpar, ← pow_add]
        congr 1
        omega
      · rw [if_neg hpar, ← pow_add, ← pow_succ]
        congr 1
        omega

/-- powBin computes Nat exponentiation on all exponents below 2^64. -/
theorem powBin_eq (b n : Nat) (h : n < 2 ^ 64) : powBin b n = b ^ n :=
  powBinAux_eq 64 b n h

theorem maxU64_eq : maxU64 = 18446744073709551615 := rfl

theorem cutoff10_eq : cutoff10 = 1844674407370955162 := rfl

theorem two_pow_64_eq : (2 : Nat) ^ 64 = 18446744073709551616 := by norm_num

theorem two_pow_63_nat : (2 : Nat) ^ 63 = 9223372036854775808 := by norm_num

theorem two_pow_63_int : (2 : Int) ^ 63 = 9223372036854775808 := by norm_num

theorem isDig_iff {c : Char} : isDig c = true ↔ 48 ≤ c.toNat ∧ c.toNat ≤ 57 := by
  simp [isDig]

theorem digitsFold_cons (a : Nat) (c : Char) (ds : List Char) :
    digitsFold a (c :: ds) = digitsFold (a * 10 + (c.toNat - 48)) ds := rfl

theorem digitsFold_ge (ds : List Char) :
    ∀ a : Nat, a * 10 ^ ds.length ≤ digitsFold a ds := by
  induction ds with
  | nil => intro a; simp [digitsFold]
  | cons c ds ih =>
    intro a
    rw [digitsFold_cons]
    calc a * 10 ^ (c :: ds).length = a * 10 * 10 ^ ds.length := by
          rw [List.length_cons, pow_succ]; ring
      _ ≤ (a * 10 + (c.toNat - 48)) * 10 ^ ds.length :=
          Nat.mul_le_mul_right _ (Nat.le_add_right _ _)
      _ ≤ digitsFold (a * 10 + (c.toNat - 48)) ds := ih _

theorem digitsFold_self_le (ds : List Char) (a : Nat) : a ≤ digitsFold a ds := by
  have h1 : 1 ≤ 10 ^ ds.length := Nat.one_le_pow _ _ (by norm_num)
  calc a = a * 1 := by ring
    _ ≤ a * 10 ^ ds.length := Nat.mul_le_mul_left _ h1
    _ ≤ digitsFold a ds := digitsFold_ge ds a

theorem parseUintLoop_digits (ds : List Char) :
    ∀ a : Nat, (∀ c ∈ ds, isDig c = true) → a < 2 ^ 64 →
      parseUintLoop ds a =
        if digitsFold a ds ≤ maxU64 then .ok (digitsFold a ds)
        else .error .errRange := by
  induction ds with
  | nil =>
    intro a _ ha
    rw [two_pow_64_eq] at ha
    show Except.ok a = if digitsFold a [] ≤ maxU64 then _ else _
    rw [show digitsFold a [] = a from rfl, if_pos (by rw [maxU64_eq]; omega)]
  | cons c ds ih =>
    intro a hall ha
    have hc : isDig c = true := hall c (List.mem_cons_self c ds)
    have hcb : 48 ≤ c.toNat ∧ c.toNat ≤ 57 := isDig_iff.mp hc
    rw [two_pow_64_eq] at ha
    rw [digitsFold_cons]
    have hfold : a * 10 + (c.toNat - 48) ≤ digitsFold (a * 10 + (c.toNat - 48)) ds :=
      digitsFold_self_le ds _
    simp only [parseUintLoop, hc, if_true]
    by_cases hcut : cutoff10 ≤ a
    · rw [if_pos hcut]
      rw [cutoff10_eq, maxU64_eq] at *
      rw [if_neg (by omega)]
    · rw [if_neg hcut]
      rw [cutoff10_eq] at hcut
      have hm1 : a * 10 % 2 ^ 64 = a * 10 :=
        Nat.mod_eq_of_lt (by rw [two_pow_64_eq]; omega)
      rw [hm1]
      by_cases hov : a * 10 + (c.toNat - 48) < 2 ^ 64
      · have hm2 : (a * 10 + (c.toNat - 48)) % 2 ^ 64 = a * 10 + (c.toNat - 48) :=
          Nat.mod_eq_of_lt hov
        rw [hm2]
        rw [two_pow_64_eq] at hov
        rw [if_neg (by rw [maxU64_eq]; omega)]
        exact ih _ (fun x hx => hall x (List.mem_cons_of_mem c hx)) (by rw [two_pow_64_eq]; omega)
      · rw [two_pow_64_eq] at hov
        have hm2 : (a * 10 + (c.toNat - 48)) % 2 ^ 64 =
            a * 10 + (c.toNat - 48) - 18446744073709551616 := by
          rw [two_pow_64_eq]; omega
        rw [hm2]
        rw [if_pos (by rw [maxU64_eq]; omega)]
        rw [if_neg (by rw [maxU64_eq]; omega)]

theorem parseUintLoop_nondigit (ds : List Char) :
    ∀ a : Nat, ¬(∀ c ∈ ds, isDig c = true) →
      ∃ k, parseUintLoop ds a = .error k := by
  induction ds with
  | nil =>
    intro a h
    exact absurd (by intro c hc; exact absurd hc (List.not_mem_nil c)) h
  | cons c ds ih =>
    intro a h
    by_cases hc : isDig c = true
    · have h' : ¬(∀ x ∈ ds, isDig x = true) := by
        intro hall
        refine h ?_
        intro x hx
        rcases List.mem_cons.mp hx with rfl | hx
        · exact hc
        · exact hall x hx
      simp only [parseUintLoop, hc, if_true]
      by_cases hcut : cutoff10 ≤ a
      · exact ⟨.errRange, by rw [if_pos hcut]⟩
      · rw [if_neg hcut]
        by_cases hbad : (a * 10 % 2 ^ 64 + (c.toNat - 48)) % 2 ^ 64 < a * 10 % 2 ^ 64 ∨
            maxU64 < (a * 10 % 2 ^ 64 + (c.toNat - 48)) % 2 ^ 64
        · exact ⟨.errRange, by rw [if_pos hbad]⟩
        · rw [if_neg hbad]
          exact ih _ h'
    · exact ⟨.errSyn, by simp [parseUintLoop, hc]⟩

theorem parseIntPost_spec (s : String) (neg : Bool) (ds : List Char) :
    (specIntCore neg ds = none ∧
      ∃ k, parseIntPost s neg ds = .error ⟨"ParseInt", s, k⟩) ∨
    (∃ n : Int, specIntCore neg ds = some n ∧
      (((-(2 ^ 63) ≤ n ∧ n < 2 ^ 63) ∧ parseIntPost s neg ds = .ok n) ∨
       ((n < -(2 ^ 63) ∨ 2 ^ 63 ≤ n) ∧
        parseIntPost s neg ds = .error ⟨"ParseInt", s, .errRange⟩))) := by
  by_cases hdd : isDecDigits ds = true
  · have hcomp : ds.isEmpty = false ∧ ∀ c ∈ ds, isDig c = true := by
      simpa [isDecDigits, Bool.and_eq_true, Bool.not_eq_true',
        List.all_eq_true] using hdd
    obtain ⟨hne', hall⟩ := hcomp
    have hne : ds ≠ [] := by intro h; subst h; simp at hne'
    have hloop := parseUintLoop_digits ds 0 hall (by norm_num)
    have hgo : goParseUint10_64 ds =
        if digitsVal ds ≤ maxU64 then .ok (digitsVal ds) else .error .errRange := by
      unfold goParseUint10_64
      rw [if_neg hne, hloop]
      rfl
    refine Or.inr ?_
    by_cases hvle : digitsVal ds ≤ maxU64
    · have hgo' : goParseUint10_64 ds = .ok (digitsVal ds) := by
        rw [hgo, if_pos hvle]
      rw [maxU64_eq] at hvle
      cases neg with
      | false =>
        refine ⟨(digitsVal ds : Int), by unfold specIntCore; rw [if_pos hdd]; rfl, ?_⟩
        by_cases hv63 : 2 ^ 63 ≤ digitsVal ds
        · rw [two_pow_63_nat] at hv63
          refine Or.inr ⟨?_, by simp [parseIntPost, hgo', hv63]⟩
          right
          rw [two_pow_63_int]
          omega
        · rw [two_pow_63_nat] at hv63
          refine Or.inl ⟨?_, by simp [parseIntPost, hgo', hv63]⟩
          rw [two_pow_63_int]
          omega
      | true =>
        refine ⟨-(digitsVal ds : Int), by unfold specIntCore; rw [if_pos hdd]; rfl, ?_⟩
        by_cases hv63 : 2 ^ 63 < digitsVal ds
        · rw [two_pow_63_nat] at hv63
          refine Or.inr ⟨?_, by simp [parseIntPost, hgo', hv63]⟩
          left
          rw [two_pow_63_int]
          omega
        · rw [two_pow_63_nat] at hv63
          refine Or.inl ⟨?_, by simp [parseIntPost, hgo', hv63]⟩
          rw [two_pow_63_int]
          omega
    · have hgo' : goParseUint10_64 ds = .error .errRange := by
        rw [hgo, if_neg hvle]
      rw [maxU64_eq] at hvle
      cases neg with
      | false =>
        refine ⟨(digitsVal ds : Int), by unfold specIntCore; rw [if_pos hdd]; rfl,
          Or.inr ⟨?_, by simp only [parseIntPost, hgo']⟩⟩
        right
        rw [two_pow_63_int]
        omega
      | true =>
        refine ⟨-(digitsVal ds : Int), by unfold specIntCore; rw [if_pos hdd]; rfl,
          Or.inr ⟨?_, by simp only [parseIntPost, hgo']⟩⟩
        left
        rw [two_pow_63_int]
        omega
  · have hddf : isDecDigits ds = false := by simpa using hdd
    refine Or.inl ⟨by simp [specIntCore, hddf], ?_⟩
    by_cases hnil : ds = []
    · subst hnil
      exact ⟨.errSyn, by simp [parseIntPost, goParseUint10_64]⟩
    · have hallne : ¬(∀ c ∈ ds, isDig c = true) := by
        intro hall
        apply hdd
        have h1 : ds.all isDig = true := List.all_eq_true.mpr hall
        have h2 : ds.isEmpty = false := by
          rcases ds with _ | ⟨c, l⟩
          · exact absurd rfl hnil
          · rfl
        simp [isDecDigits, h1, h2]
      obtain ⟨k0, hk⟩ := parseUintLoop_nondigit ds 0 hallne
      have hgo' : goParseUint10_64 ds = .error k0 := by
        unfold goParseUint10_64
        rw [if_neg hnil, hk]
      cases k0 with
      | errSyn => exact ⟨.errSyn, by simp only [parseIntPost, hgo']⟩
      | errRange => exact ⟨.errRange, by simp only [parseIntPost, hgo']⟩

/-- Claim C2: for every string, the boolean conversion matches the whole
lowercased value against the fixed truthy set (yielding true), the fixed
falsy set (yielding false), and fails with the boolean ConversionError on
everything else; in particular "Yes" is true, "N" is false, and "maybe"
fails. -/
theorem c2_boolean (value : String) :
    (ConvertStringToType value "boolean" = (some (.vBool true), none) ↔
      goToLower value ∈ ["true", "t", "yes", "y", "1"]) ∧
    (ConvertStringToType value "boolean" = (some (.vBool false), none) ↔
      goToLower value ∈ ["false", "f", "no", "n", "0"]) ∧
    (ConvertStringToType value "boolean" =
        (none, some (.booleanParse value)) ↔
      (goToLower value ∉ ["true", "t", "yes", "y", "1"] ∧
       goToLower value ∉ ["false", "f", "no", "n", "0"])) ∧
    ConvertStringToType "Yes" "boolean" = (some (.vBool true), none) ∧
    ConvertStringToType "N" "boolean" = (some (.vBool false), none) ∧
    ConvertStringToType "maybe" "boolean" =
      (none, some (.booleanParse "maybe")) := by
  rw [convert_boolean_tag]
  by_cases hT : goToLower value ∈ ["true", "t", "yes", "y", "1"]
  · have hF : goToLower value ∉ ["false", "f", "no", "n", "0"] := by
      intro hF
      simp only [List.mem_cons, List.not_mem_nil, or_false] at hT hF
      rcases hT with h | h | h | h | h <;> rcases hF with g | g | g | g | g <;>
        rw [h] at g <;> exact absurd g (by decide)
    refine ⟨?_, ?_, ?_, by decide, by decide, by decide⟩ <;> simp [hT, hF]
  · by_cases hF : goToLower value ∈ ["false", "f", "no", "n", "0"] <;>
      refine ⟨?_, ?_, ?_, by decide, by decide, by decide⟩ <;> simp [hT, hF]

/-- Claim C4: for every string, the "string" conversion and the empty-tag
conversion both succeed returning the value unchanged, and agree. -/
theorem c4_string_default (value : String) :
    ConvertStringToType value "string" = (some (.vString value), none) ∧
    ConvertStringToType value "" = ConvertStringToType value "string" :=
  ⟨rfl, rfl⟩

/-- Claim C5: every parameter type outside the five recognized tags fails
with the UnsupportedTypeError whose message embeds the offending type
string. -/
theorem c5_unsupported (value paramType : String)
    (h : paramType ∉ ["", "string", "number", "integer", "boolean"]) :
    ConvertStringToType value paramType =
      (none, some (.unsupportedType paramType)) ∧
    ConvError.isUnsupportedTypeError (.unsupportedType paramType) = true ∧
    embeds paramType (ConvError.message (.unsupportedType paramType)) := by
  simp only [List.mem_cons, List.not_mem_nil, or_false, not_or] at h
  obtain ⟨h0, h1, h2, h3, h4⟩ := h
  exact ⟨by simp [ConvertStringToType, convertCore, h0, h1, h2, h3, h4], rfl,
    embeds_end "unsupported parameter type: " paramType⟩

/-- Claim C6: every failing conversion returns no value together with an
error whose message embeds the offending input (for the three
ConversionError sites) or the offending type tag (for the
UnsupportedTypeError site); no failure is swallowed and no fallback value
is substituted. -/
theorem c6_error_reporting (value paramType : String) :
    ∀ e : ConvError, (ConvertStringToType value paramType).2 = some e →
      (ConvertStringToType value paramType).1 = none ∧
      (e.isConversionError = true → embeds value e.message) ∧
      (e.isUnsupportedTypeError = true → embeds paramType e.message) := by
  intro e he
  rcases convert_master value paramType with
    ⟨_, hc⟩ | ⟨_, ⟨f, hc⟩ | ⟨er, hc⟩⟩ | ⟨_, ⟨n, hc⟩ | ⟨er, hc⟩⟩ |
    ⟨_, ⟨b, hc⟩ | hc⟩ | ⟨_, _, _, _, _, hc⟩
  · rw [hc] at he; simp at he
  · rw [hc] at he; simp at he
  · rw [hc] at he
    simp only [Option.some.injEq] at he
    subst he
    refine ⟨by rw [hc], fun _ => ?_, fun hbad => ?_⟩
    · exact embeds_mid2 "failed to parse '" value "' as number: " er.message
    · simp [ConvError.isUnsupportedTypeError] at hbad
  · rw [hc] at he; simp at he
  · rw [hc] at he
    simp only [Option.some.injEq] at he
    subst he
    refine ⟨by rw [hc], fun _ => ?_, fun hbad => ?_⟩
    · exact embeds_mid2 "failed to parse '" value "' as integer: " er.message
    · simp [ConvError.isUnsupportedTypeError] at hbad
  · rw [hc] at he; simp at he
  · rw [hc] at he
    simp only [Option.some.injEq] at he
    subst he
    refine ⟨by rw [hc], fun _ => ?_, fun hbad => ?_⟩
    · exact embeds_after "failed to parse '" value "' as boolean"
    · simp [ConvError.isUnsupportedTypeError] at hbad
  · rw [hc] at he
    simp only [Option.some.injEq] at he
    subst he
    refine ⟨by rw [hc], fun hbad => ?_, fun _ => ?_⟩
    · simp [ConvError.isConversionError] at hbad
    · exact embeds_end "unsupported parameter type: " paramType

/-- Claim C6 witness: the boolean failure on "maybe" returns no value and
its message embeds the offending input. -/
theorem c6_error_reporting_witness :
    (ConvertStringToType "maybe" "boolean").1 = none ∧
    embeds "maybe" (ConvError.message (.booleanParse "maybe")) := by
  have h := c6_error_reporting "maybe" "boolean" (.booleanParse "maybe")
    (by decide)
  exact ⟨h.1, h.2.1 rfl⟩

/-- Claim C7: ConvertStringToType is deterministic; the embedding is a pure
function of its two arguments (the Go function reads no state besides its
arguments), so identical inputs yield identical results. -/
theorem c7_deterministic (value paramType : String) :
    ConvertStringToType value paramType = ConvertStringToType value paramType :=
  rfl

/-- Claim C8: ConvertStringToType always completes: it is a total function,
every recursion in the embedding being structural on the input string. -/
theorem c8_total (value paramType : String) :
    ∃ r : Option Value × Option ConvError,
      ConvertStringToType value paramType = r :=
  ⟨_, rfl⟩

/-- Claim C9: the value result is nil exactly when an error is returned,
and a success value is a string for "string"/"", a float for "number", an
integer for "integer", and a boolean for "boolean". -/
theorem c9_value_error_dichotomy (value paramType : String) :
    ((ConvertStringToType value paramType).1 = none ↔
      (ConvertStringToType value paramType).2.isSome = true) ∧
    ∀ val : Value, (ConvertStringToType value paramType).1 = some val →
      wellTyped paramType val := by
  rcases convert_master value paramType with
    ⟨ht, hc⟩ | ⟨ht, ⟨f, hc⟩ | ⟨er, hc⟩⟩ | ⟨ht, ⟨n, hc⟩ | ⟨er, hc⟩⟩ |
    ⟨ht, ⟨b, hc⟩ | hc⟩ | ⟨_, _, _, _, _, hc⟩ <;>
    rw [hc] <;> refine ⟨by simp, ?_⟩ <;> intro val hv <;>
    simp only [Option.some.injEq] at hv <;> first
    | (subst hv; exact Or.symm ht)
    | (subst hv; exact ht)
    | simp at hv

/-- Claim C9 witness: converting the empty string with type "string"
succeeds with the (typed) empty string value. -/
theorem c9_value_error_dichotomy_witness :
    (ConvertStringToType "" "string").1 = some (.vString "") ∧
    wellTyped "string" (.vString "") :=
  ⟨rfl, (c9_value_error_dichotomy "" "string").2 (.vString "") rfl⟩

theorem int_master (s : String) :
    (specInt10 s = none ∧ ∃ k, goParseInt10_64 s = .error ⟨"ParseInt", s, k⟩) ∨
    (∃ n : Int, specInt10 s = some n ∧
      (((-(2 ^ 63) ≤ n ∧ n < 2 ^ 63) ∧ goParseInt10_64 s = .ok n) ∨
       ((n < -(2 ^ 63) ∨ 2 ^ 63 ≤ n) ∧
        goParseInt10_64 s = .error ⟨"ParseInt", s, .errRange⟩))) := by
  rcases hd : s.data with _ | ⟨c, rest⟩
  · refine Or.inl ⟨?_, .errSyn, ?_⟩
    · unfold specInt10
      rw [hd]
    · unfold goParseInt10_64
      rw [hd]
  · have hspec : specInt10 s =
        (if c = '+' then specIntCore false rest
         else if c = '-' then specIntCore true rest
         else specIntCore false (c :: rest)) := by
      unfold specInt10
      rw [hd]
    have hgo : goParseInt10_64 s =
        (if c = '+' then parseIntPost s false rest
         else if c = '-' then parseIntPost s true rest
         else parseIntPost s false (c :: rest)) := by
      unfold goParseInt10_64
      rw [hd]
    by_cases hp : c = '+'
    · rw [hspec, hgo, if_pos hp, if_pos hp]
      exact parseIntPost_spec s false rest
    by_cases hm : c = '-'
    · rw [hspec, hgo, if_neg hp, if_neg hp, if_pos hm, if_pos hm]
      exact parseIntPost_spec s true rest
    · rw [hspec, hgo, if_neg hp, if_neg hp, if_neg hm, if_neg hm]
      exact parseIntPost_spec s false (c :: rest)

/-- Claim C3: the integer conversion parses the value as a base-10 signed
64-bit integer: a base-10 literal whose value fits int64 succeeds
returning that integer; a base-10 literal out of int64 range fails with a
range ConversionError; and every other string (including float strings
such as "1.5") fails with a ConversionError. -/
theorem c3_integer (value : String) :
    (∀ n : Int, specInt10 value = some n → -(2 ^ 63) ≤ n → n < 2 ^ 63 →
      ConvertStringToType value "integer" = (some (.vInt n), none)) ∧
    (∀ n : Int, specInt10 value = some n → (n < -(2 ^ 63) ∨ 2 ^ 63 ≤ n) →
      ConvertStringToType value "integer" =
        (none, some (.integerParse value ⟨"ParseInt", value, .errRange⟩))) ∧
    (specInt10 value = none →
      ∃ e : NumError, ConvertStringToType value "integer" =
        (none, some (.integerParse value e))) := by
  rcases int_master value with ⟨hn, k, hg⟩ | ⟨n, hs, ⟨hr, hg⟩ | ⟨hr, hg⟩⟩
  · refine ⟨?_, ?_, fun _ => ⟨⟨"ParseInt", value, k⟩, ?_⟩⟩
    · intro n hsome
      rw [hn] at hsome
      exact absurd hsome (by simp)
    · intro n hsome
      rw [hn] at hsome
      exact absurd hsome (by simp)
    · rw [convert_integer_tag, hg]
  · refine ⟨?_, ?_, fun hnone => ?_⟩
    · intro n' hsome' hlo hhi
      rw [hs] at hsome'
      have hnn : n = n' := by simpa using hsome'
      subst hnn
      rw [convert_integer_tag, hg]
    · intro n' hsome' hout
      rw [hs] at hsome'
      have hnn : n = n' := by simpa using hsome'
      subst hnn
      rw [two_pow_63_int] at hr hout
      omega
    · rw [hs] at hnone
      exact absurd hnone (by simp)
  · refine ⟨?_, ?_, fun hnone => ?_⟩
    · intro n' hsome' hlo hhi
      rw [hs] at hsome'
      have hnn : n = n' := by simpa using hsome'
      subst hnn
      rw [two_pow_63_int] at hr hlo hhi
      omega
    · intro n' hsome' hout
      rw [hs] at hsome'
      have hnn : n = n' := by simpa using hsome'
      subst hnn
      rw [convert_integer_tag, hg]
    · rw [hs] at hnone
      exact absurd hnone (by simp)

/-- Claim C3 witness at concrete inputs: "42" succeeds as the integer 42,
"1.5" fails, and 2^63 (just above the int64 range) fails with a range
error. -/
theorem c3_integer_witness :
    ConvertStringToType "42" "integer" = (some (.vInt 42), none) ∧
    (∃ e : NumError, ConvertStringToType "1.5" "integer" =
      (none, some (.integerParse "1.5" e))) ∧
    ConvertStringToType "9223372036854775808" "integer" =
      (none, some (.integerParse "9223372036854775808"
        ⟨"ParseInt", "9223372036854775808", .errRange⟩)) :=
  ⟨(c3_integer "42").1 42 (by decide) (by decide) (by decide),
   (c3_integer "1.5").2.2 (by decide),
   (c3_integer "9223372036854775808").2.1 9223372036854775808 (by decide)
     (by decide)⟩

/-- Claim C5 witness: the unsupported type "enum" fails with an
UnsupportedTypeError whose message embeds "enum". -/
theorem c5_unsupported_witness :
    ConvertStringToType "x" "enum" = (none, some (.unsupportedType "enum")) ∧
    embeds "enum" (ConvError.message (.unsupportedType "enum")) :=
  ⟨(c5_unsupported "x" "enum" (by decide)).1,
   (c5_unsupported "x" "enum" (by decide)).2.2⟩

/-- Claim C1 counterexample: the claimed equivalence "fails iff not a valid
decimal/exponential float literal" is false in both directions: "NaN" is
not a decimal/exponential literal yet the conversion succeeds, and "1e999"
is a well-formed decimal/exponential literal yet the conversion fails
(float64 overflow is a ParseFloat range error). -/
theorem c1_counterexample :
    (specDecFloat "NaN" = false ∧
      (ConvertStringToType "NaN" "number").2 = none) ∧
    (specDecFloat "1e999" = true ∧
      (ConvertStringToType "1e999" "number").1 = none) :=
  ⟨⟨rfl, rfl⟩, ⟨rfl, rfl⟩⟩

/-- Claim C1 (amended): the number conversion fails, with a
ConversionError wrapping the strconv error, exactly when goParseFloat64
(Go's ParseFloat) rejects the value - that is, when the value is outside
ParseFloat's accepted syntax (decimal/exponential or hexadecimal literals
with optional digit-separating underscores, plus case-insensitive
optionally signed Inf/Infinity and NaN), or is a well-formed finite
literal whose magnitude overflows float64.  When ParseFloat accepts the
value, the conversion succeeds and returns the parsed number. -/
theorem c1_number_amended (value : String) :
    ((ConvertStringToType value "number").2.isSome = true ↔
      ¬∃ f, goParseFloat64 value = .ok f) ∧
    (∀ f, goParseFloat64 value = .ok f →
      ConvertStringToType value "number" = (some (.vNumber f), none)) ∧
    (∀ e, goParseFloat64 value = .error e →
      ConvertStringToType value "number" =
        (none, some (.numberParse value e)) ∧
      ConvError.isConversionError (.numberParse value e) = true) := by
  refine ⟨?_, ?_, ?_⟩
  · rw [convert_number_tag]
    rcases hp : goParseFloat64 value with e | f <;> simp
  · intro f hf
    rw [convert_number_tag, hf]
  · intro e he
    exact ⟨by rw [convert_number_tag, he], rfl⟩

/-- Claim C1 witness: "1.5" parses to the number 3/2; "abc" fails with a
syntax ConversionError; and "1e999" fails with a range ConversionError. -/
theorem c1_number_amended_witness :
    ConvertStringToType "1.5" "number" =
      (some (.vNumber (.finite (mkRat 3 2))), none) ∧
    ConvertStringToType "abc" "number" =
      (none, some (.numberParse "abc" ⟨"ParseFloat", "abc", .errSyn⟩)) ∧
    ConvertStringToType "1e999" "number" =
      (none, some (.numberParse "1e999" ⟨"ParseFloat", "1e999", .errRange⟩)) :=
  ⟨(c1_number_amended "1.5").2.1 _ rfl,
   ((c1_number_amended "abc").2.2 _ rfl).1,
   ((c1_number_amended "1e999").2.2 _ rfl).1⟩

/-- Claim C10: strings that are not standard decimal/exponential numeric
literals - "Inf", "NaN", the hexadecimal float "0x1p-2" (value 1/4), and
the underscore-separated "1_000" - are nevertheless converted successfully
by the number conversion, because the accepted syntax is that of Go's
strconv.ParseFloat, which is broader than plain decimal/exponential
notation. -/
theorem c10_broader_syntax :
    (specDecFloat "Inf" = false ∧
      ConvertStringToType "Inf" "number" =
        (some (.vNumber (.inf false)), none)) ∧
    (specDecFloat "NaN" = false ∧
      ConvertStringToType "NaN" "number" = (some (.vNumber .nan), none)) ∧
    (specDecFloat "0x1p-2" = false ∧
      ConvertStringToType "0x1p-2" "number" =
        (some (.vNumber (.finite (mkRat 1 4))), none)) ∧
    (specDecFloat "1_000" = false ∧
      ConvertStringToType "1_000" "number" =
        (some (.vNumber (.finite (mkRat 1000 1))), none)) :=
  ⟨⟨rfl, rfl⟩, ⟨rfl, rfl⟩, ⟨rfl, rfl⟩, ⟨rfl, rfl⟩⟩

end MCPShell
